import Mathlib

/-!
# Verification of the fault-injection simulation driver (`scripts/cxxrtl/sim.cpp`)

This file gives a shallow embedding of the driver's algorithmic core and proves
the specified properties about it.

The simulated circuit (`cxxrtl_design::p_top`) is an external black box: the
driver only *samples* its output signals each cycle and pokes bits of its raw
memory.  We therefore model one simulated cycle by the values the driver reads
from the circuit in that cycle, together with the random draws made in that
cycle (`CycleInput`), and the driver's own mutable state (`SimState`): the
shadow `flips_array`, the handshake counters, `errors_injected`, and the
`read_with_errors` histogram.  The circuit's own memory contents never feed
back into any of the driver state the claims are about, so they are not
modelled.

Machine integers (`size_t` / `uint64_t`) are modelled as `Nat`; the shadow
masks produced by the program always stay below `2 ^ 64` because every
injection XORs in `1 <<< bit` with `bit < 64` (a shift by 64 or more is
undefined behaviour in the C source), so no wrap-around arithmetic occurs.
-/

namespace SimCpp

/-- `std::__popcount` applied to a 64-bit value: the number of set bits among
bit positions `0 .. 63`.  (`flips_array` entries are `size_t`, i.e. 64 bits.) -/
def popcount (x : Nat) : Nat :=
  ((List.range 64).filter (fun i => x.testBit i)).length

/-- One injection step of the inner `while(flips--)` loop, acting on the shadow
model only: `flips_array[cell] ^= (1ull << bit);` (sim.cpp line 116).
`fa` is the shadow array, one bitmask per memory cell. -/
def injectFlip (fa : List Nat) (cb : Nat × Nat) : List Nat :=
  fa.set cb.1 (fa.getD cb.1 0 ^^^ (1 <<< cb.2))

/-- Everything the driver reads during one iteration of the main loop:
the random draws of the injection phase (as the list of drawn
`(cell, bit)` pairs, whose length is the Poisson draw `flips`), and the
circuit output signals sampled in that cycle. -/
structure CycleInput where
  flips : List (Nat × Nat)
  rsp_ready : Bool
  rsp_valid : Bool
  req_valid : Bool
  req_ready : Bool
  sram_clk_en : Bool
  sram_write_en : Bool
  sram_addr : Nat
deriving DecidableEq

/-- The driver's own state: the shadow `flips_array` (sim.cpp line 78), the
four handshake counters, `errors_injected`, and the `read_with_errors`
histogram (line 103, size `num_memory_bits + 1`). -/
structure SimState where
  flips_array : List Nat
  req_valid_cycles : Nat
  req_fire_cycles : Nat
  rsp_ready_cycles : Nat
  rsp_fire_cycles : Nat
  errors_injected : Nat
  read_with_errors : List Nat
deriving DecidableEq

/-- The state right before the main loop (sim.cpp lines 78-106): the shadow
array and the histogram zero-initialised, all counters zero. -/
def initState (num_memory_cells num_memory_bits : Nat) : SimState :=
  { flips_array := List.replicate num_memory_cells 0
    req_valid_cycles := 0
    req_fire_cycles := 0
    rsp_ready_cycles := 0
    rsp_fire_cycles := 0
    errors_injected := 0
    read_with_errors := List.replicate (num_memory_bits + 1) 0 }

/-- One iteration of the main loop (sim.cpp lines 109-173), in source order:

1. injection: for each drawn `(cell, bit)`, XOR the shadow bit (line 116) and
   increment `errors_injected` (line 122);
2. handshake sampling (lines 126-142);
3. SRAM intent: on `sram_clk_en && !sram_write_en` (a read cycle) increment
   `read_with_errors[popcount(flips_array[sram_addr])]` (lines 149-152);
   on `sram_clk_en && sram_write_en` (a write cycle) reset
   `flips_array[sram_addr] = 0` (lines 161-164).

The final `clk()` call only advances the black-box circuit and the optional
VCD sink; it touches no driver state. -/
def stepCycle (s : SimState) (inp : CycleInput) : SimState :=
  let fa := inp.flips.foldl injectFlip s.flips_array
  let errors := s.errors_injected + inp.flips.length
  let rsp_ready_cycles :=
    if inp.rsp_ready then s.rsp_ready_cycles + 1 else s.rsp_ready_cycles
  let rsp_fire_cycles :=
    if inp.rsp_valid && inp.rsp_ready then s.rsp_fire_cycles + 1 else s.rsp_fire_cycles
  let req_valid_cycles :=
    if inp.req_valid then s.req_valid_cycles + 1 else s.req_valid_cycles
  let req_fire_cycles :=
    if inp.req_valid && inp.req_ready then s.req_fire_cycles + 1 else s.req_fire_cycles
  let hist :=
    if inp.sram_clk_en && !inp.sram_write_en then
      let p := popcount (fa.getD inp.sram_addr 0)
      s.read_with_errors.set p (s.read_with_errors.getD p 0 + 1)
    else s.read_with_errors
  let fa2 :=
    if inp.sram_clk_en && inp.sram_write_en then fa.set inp.sram_addr 0 else fa
  { flips_array := fa2
    req_valid_cycles := req_valid_cycles
    req_fire_cycles := req_fire_cycles
    rsp_ready_cycles := rsp_ready_cycles
    rsp_fire_cycles := rsp_fire_cycles
    errors_injected := errors
    read_with_errors := hist }

/-- The whole main loop: fold `stepCycle` over the per-cycle inputs
(`total_cycles` iterations, one `CycleInput` each). -/
def runCycles (s : SimState) (trace : List CycleInput) : SimState :=
  trace.foldl stepCycle s

/-- Accumulate decimal digits, stopping at the first non-digit:
the digit-consuming loop of `strtoull(_, NULL, 10)`. -/
def parseDigits : List Char → Nat → Nat
  | [], acc => acc
  | c :: cs, acc =>
    if c.isDigit then parseDigits cs (acc * 10 + (c.toNat - 48)) else acc

/-- The sign-and-digits part of `strtoull(_, NULL, 10)`, applied after
whitespace skipping: an optional `-` or `+` sign, then decimal digits; a `-`
sign wraps the parsed value modulo `2 ^ 64`.  When no digits follow, the
parsed value is `0`. -/
def strtoullCore (t : List Char) : Nat :=
  match t with
  | [] => 0
  | c :: rest =>
    if c = '-' then (2 ^ 64 - parseDigits rest 0 % 2 ^ 64) % 2 ^ 64
    else if c = '+' then parseDigits rest 0
    else parseDigits (c :: rest) 0

/-- `std::strtoull(s, NULL, 10)` (sim.cpp line 67) as used on `argv[1]`:
skip leading spaces, consume an optional sign, then consume decimal digits;
if no digits are recognisable the result is `0` — no error is reported
because the end pointer is `NULL`. -/
def strtoull10 (s : String) : Nat :=
  strtoullCore (s.data.dropWhile (fun c => c = ' '))

/-- `strtoull` recognises no digits in `t` (after whitespace skipping): the
string is empty, or its first character after an optional sign is not a
decimal digit.  This is exactly the "unrecognizable numeral" condition under
which `strtoull(_, NULL, 10)` yields 0 with no error report. -/
def noLeadingDigit (t : List Char) : Bool :=
  match t with
  | [] => true
  | c :: rest =>
    if c = '-' ∨ c = '+' then
      match rest with
      | [] => true
      | d :: _ => !d.isDigit
    else !c.isDigit

/-- The argument string is not a valid numeral for `strtoull(_, NULL, 10)`:
after skipping leading spaces, no digits are recognisable. -/
def unrecognizableNumeral (s : String) : Bool :=
  noLeadingDigit (s.data.dropWhile (fun c => c = ' '))

/-- What the process emits and how it exits.  `usage` is the `argc < 3`
path (sim.cpp lines 38-40): exit status 1, nothing printed.  `report` is the
normal path: the final counters and histogram are printed (lines 184-192) and
`main` falls off the end, so the exit status is 0. -/
inductive MainResult where
  | usage (exitCode : Nat)
  | report (exitCode : Nat) (final : SimState)
deriving DecidableEq

/-- The driver process: `main` of sim.cpp.  `args` are the positional
arguments (`argv[1..]`, so `argc = args.length + 1` and the check
`argc < 3` is `args.length < 2`).  The circuit geometry
(`num_memory_cells`, `num_memory_bits`) comes from the black-box design,
and `oracle` abstracts both the circuit's sampled signals and the seeded
random stream: it yields the `CycleInput` of each cycle.  `argv[2]` (the
Poisson mean `lambda`, parsed by `strtod`) only parameterises the random
source, so it is absorbed by `oracle`; a mean of `0` makes every Poisson
draw `0`, i.e. every cycle's `flips` list empty. -/
def mainSim (args : List String) (num_memory_cells num_memory_bits : Nat)
    (oracle : Nat → CycleInput) : MainResult :=
  if args.length < 2 then .usage 1
  else
    let total_cycles := strtoull10 (args.getD 0 "")
    let trace := (List.range total_cycles).map oracle
    .report 0 (runCycles (initState num_memory_cells num_memory_bits) trace)

/-! ## Bit-counting lemmas -/

theorem length_filter_range_flip {p q : Nat → Bool} (n b : Nat) (hb : b < n)
    (hagree : ∀ i, i ≠ b → p i = q i) (hpb : p b = true) (hqb : q b = false) :
    ((List.range n).filter p).length = ((List.range n).filter q).length + 1 := by
  induction n with
  | zero => exact absurd hb (Nat.not_lt_zero b)
  | succ n ih =>
    rw [List.range_succ, List.filter_append, List.filter_append,
      List.length_append, List.length_append]
    by_cases hbn : b = n
    · subst hbn
      rw [List.filter_congr (fun x hx => hagree x (by
        have := List.mem_range.mp hx; omega))]
      simp [List.filter_singleton, hpb, hqb]
    · have hb' : b < n := by omega
      have hpq : p n = q n := hagree n (fun h => hbn h.symm)
      rw [ih hb']
      simp only [List.filter_singleton, hpq]
      omega

theorem popcount_flip_up (x b : Nat) (hb : b < 64) (h : x.testBit b = false) :
    popcount (x ^^^ (1 <<< b)) = popcount x + 1 := by
  have h1 : (1 <<< b : Nat) = 2 ^ b := by rw [Nat.shiftLeft_eq, one_mul]
  unfold popcount
  refine length_filter_range_flip 64 b hb ?_ ?_ ?_
  · intro i hi
    rw [h1, Nat.testBit_xor, Nat.testBit_two_pow_of_ne (fun hbi => hi hbi.symm),
      Bool.xor_false]
  · rw [h1, Nat.testBit_xor, Nat.testBit_two_pow_self, h]
    rfl
  · exact h

theorem popcount_flip_down (x b : Nat) (hb : b < 64) (h : x.testBit b = true) :
    popcount (x ^^^ (1 <<< b)) + 1 = popcount x := by
  have h1 : (1 <<< b : Nat) = 2 ^ b := by rw [Nat.shiftLeft_eq, one_mul]
  unfold popcount
  refine (length_filter_range_flip 64 b hb ?_ ?_ ?_).symm
  · intro i hi
    rw [h1, Nat.testBit_xor, Nat.testBit_two_pow_of_ne (fun hbi => hi hbi.symm),
      Bool.xor_false]
  · exact h
  · rw [h1, Nat.testBit_xor, Nat.testBit_two_pow_self, h]
    rfl

/-- `popcount` of an all-zero mask is zero. -/
theorem popcount_zero : popcount 0 = 0 := by decide

/-! ## Shadow-model lemmas -/

/-- Reading back the cell just flipped: the stored mask is XORed with the
injected bit. -/
theorem getD_injectFlip_self (fa : List Nat) (c b : Nat) (hc : c < fa.length) :
    (injectFlip fa (c, b)).getD c 0 = fa.getD c 0 ^^^ (1 <<< b) := by
  unfold injectFlip
  simp [List.getD_eq_getElem?_getD, List.getElem?_set, hc]

/-- Two identical flips with no intervening clear restore the whole shadow
array. -/
theorem injectFlip_cancel (fa : List Nat) (c b : Nat) :
    injectFlip (injectFlip fa (c, b)) (c, b) = fa := by
  by_cases hc : c < fa.length
  · have hg := getD_injectFlip_self fa c b hc
    unfold injectFlip at hg ⊢
    rw [hg, List.set_set, Nat.xor_assoc, Nat.xor_self, Nat.xor_zero]
    refine List.ext_getElem? (fun i => ?_)
    rw [List.getElem?_set]
    by_cases hci : c = i
    · subst hci
      simp [hc, List.getD_eq_getElem?_getD, List.getElem?_eq_getElem hc]
    · simp [hci]
  · have hle : fa.length ≤ c := le_of_not_lt hc
    simp [injectFlip, List.set_eq_of_length_le hle]

/-! ## Driver-loop lemmas -/

theorem runCycles_nil (s : SimState) : runCycles s [] = s := rfl

theorem runCycles_cons (s : SimState) (inp : CycleInput) (rest : List CycleInput) :
    runCycles s (inp :: rest) = runCycles (stepCycle s inp) rest := rfl

theorem stepCycle_errors (s : SimState) (inp : CycleInput) :
    (stepCycle s inp).errors_injected = s.errors_injected + inp.flips.length := rfl

/-- Each drawn flip increments `errors_injected` exactly once, so a run adds
the sum of the per-cycle draw counts. -/
theorem runCycles_errors (trace : List CycleInput) (s : SimState) :
    (runCycles s trace).errors_injected =
      s.errors_injected + (trace.map (fun inp => inp.flips.length)).sum := by
  induction trace generalizing s with
  | nil => simp [runCycles_nil]
  | cons inp rest ih =>
    rw [runCycles_cons, ih, stepCycle_errors, List.map_cons, List.sum_cons]
    omega

theorem stepCycle_req_fire_le (s : SimState) (inp : CycleInput)
    (h : s.req_fire_cycles ≤ s.req_valid_cycles) :
    (stepCycle s inp).req_fire_cycles ≤ (stepCycle s inp).req_valid_cycles := by
  show (if inp.req_valid && inp.req_ready then s.req_fire_cycles + 1 else s.req_fire_cycles) ≤
    (if inp.req_valid then s.req_valid_cycles + 1 else s.req_valid_cycles)
  cases inp.req_valid <;> cases inp.req_ready <;> simp <;> omega

theorem stepCycle_rsp_fire_le (s : SimState) (inp : CycleInput)
    (h : s.rsp_fire_cycles ≤ s.rsp_ready_cycles) :
    (stepCycle s inp).rsp_fire_cycles ≤ (stepCycle s inp).rsp_ready_cycles := by
  show (if inp.rsp_valid && inp.rsp_ready then s.rsp_fire_cycles + 1 else s.rsp_fire_cycles) ≤
    (if inp.rsp_ready then s.rsp_ready_cycles + 1 else s.rsp_ready_cycles)
  cases inp.rsp_valid <;> cases inp.rsp_ready <;> simp <;> omega

theorem runCycles_fire_le (trace : List CycleInput) (s : SimState)
    (h1 : s.req_fire_cycles ≤ s.req_valid_cycles)
    (h2 : s.rsp_fire_cycles ≤ s.rsp_ready_cycles) :
    (runCycles s trace).req_fire_cycles ≤ (runCycles s trace).req_valid_cycles ∧
      (runCycles s trace).rsp_fire_cycles ≤ (runCycles s trace).rsp_ready_cycles := by
  induction trace generalizing s with
  | nil => exact ⟨h1, h2⟩
  | cons inp rest ih =>
    rw [runCycles_cons]
    exact ih _ (stepCycle_req_fire_le s inp h1) (stepCycle_rsp_fire_le s inp h2)

theorem stepCycle_hist_read (s : SimState) (inp : CycleInput)
    (hc : inp.sram_clk_en = true) (hw : inp.sram_write_en = false) :
    (stepCycle s inp).read_with_errors =
      s.read_with_errors.set
        (popcount ((inp.flips.foldl injectFlip s.flips_array).getD inp.sram_addr 0))
        (s.read_with_errors.getD
          (popcount ((inp.flips.foldl injectFlip s.flips_array).getD inp.sram_addr 0)) 0 + 1) := by
  simp [stepCycle, hc, hw]

theorem stepCycle_hist_no_read (s : SimState) (inp : CycleInput)
    (h : (inp.sram_clk_en && !inp.sram_write_en) = false) :
    (stepCycle s inp).read_with_errors = s.read_with_errors := by
  simp only [stepCycle, h]
  simp

theorem stepCycle_fa_write (s : SimState) (inp : CycleInput)
    (hc : inp.sram_clk_en = true) (hw : inp.sram_write_en = true) :
    (stepCycle s inp).flips_array =
      (inp.flips.foldl injectFlip s.flips_array).set inp.sram_addr 0 := by
  simp [stepCycle, hc, hw]

theorem stepCycle_fa_no_write (s : SimState) (inp : CycleInput)
    (h : (inp.sram_clk_en && inp.sram_write_en) = false) :
    (stepCycle s inp).flips_array = inp.flips.foldl injectFlip s.flips_array := by
  simp only [stepCycle, h]
  simp

/-- Setting a cell to zero keeps an all-zero shadow array all-zero. -/
theorem getD_set_zero (fa : List Nat) (a j : Nat) (h : ∀ k, fa.getD k 0 = 0) :
    (fa.set a 0).getD j 0 = 0 := by
  rcases lt_or_ge a fa.length with hlt | hge
  · rw [List.getD_eq_getElem?_getD, List.getElem?_set]
    by_cases haj : a = j
    · simp [haj, hlt, haj ▸ hlt]
    · have := h j
      rw [List.getD_eq_getElem?_getD] at this
      simp [haj, this]
  · rw [List.set_eq_of_length_le hge]
    exact h j

/-- Clearing a cell makes the cell read back as zero (also when the index is
out of range, where `getD` returns the default 0). -/
theorem getD_set_zero_self (l : List Nat) (a : Nat) : (l.set a 0).getD a 0 = 0 := by
  rcases lt_or_ge a l.length with hlt | hge
  · simp [List.getD_eq_getElem?_getD, List.getElem?_set, hlt]
  · rw [List.set_eq_of_length_le hge, List.getD_eq_getElem?_getD,
      List.getElem?_eq_none (by simpa using hge)]
    rfl

/-- With no flips drawn, the shadow array stays all-zero, and bucket 0 of the
histogram counts exactly the observed read cycles. -/
theorem runCycles_no_flips (trace : List CycleInput) (s : SimState)
    (hfa : ∀ k, s.flips_array.getD k 0 = 0)
    (hlen : 0 < s.read_with_errors.length)
    (hfl : ∀ inp ∈ trace, inp.flips = []) :
    (runCycles s trace).read_with_errors.getD 0 0 =
      s.read_with_errors.getD 0 0 +
        (trace.filter (fun inp => inp.sram_clk_en && !inp.sram_write_en)).length := by
  induction trace generalizing s with
  | nil => simp [runCycles_nil]
  | cons inp rest ih =>
    have hinp : inp.flips = [] := hfl inp (by simp)
    have hrest : ∀ i ∈ rest, i.flips = [] := fun i hi => hfl i (by simp [hi])
    have hfold : inp.flips.foldl injectFlip s.flips_array = s.flips_array := by
      rw [hinp]
      rfl
    have hfa2 : ∀ k, (stepCycle s inp).flips_array.getD k 0 = 0 := by
      intro k
      by_cases hwr : (inp.sram_clk_en && inp.sram_write_en) = true
      · obtain ⟨hc, hw⟩ := Bool.and_eq_true_iff.mp hwr
        rw [stepCycle_fa_write s inp hc hw, hfold]
        exact getD_set_zero _ _ _ hfa
      · rw [stepCycle_fa_no_write s inp (Bool.not_eq_true _ ▸ hwr), hfold]
        exact hfa k
    by_cases hrd : (inp.sram_clk_en && !inp.sram_write_en) = true
    · obtain ⟨hc, hw⟩ := Bool.and_eq_true_iff.mp hrd
      have hw' : inp.sram_write_en = false := by
        cases h : inp.sram_write_en
        · rfl
        · rw [h] at hw
          exact absurd hw (by simp)
      have hstep := stepCycle_hist_read s inp hc hw'
      have hlen2 : 0 < (stepCycle s inp).read_with_errors.length := by
        rw [hstep, List.length_set]
        exact hlen
      have hget : (stepCycle s inp).read_with_errors.getD 0 0 =
          s.read_with_errors.getD 0 0 + 1 := by
        rw [hstep, hfold, hfa inp.sram_addr, popcount_zero,
          List.getD_eq_getElem?_getD, List.getElem?_set]
        simp [hlen]
      rw [runCycles_cons, ih _ hfa2 hlen2 hrest, hget, List.filter_cons, hrd]
      simp
      omega
    · have hstep := stepCycle_hist_no_read s inp (Bool.not_eq_true _ ▸ hrd)
      have hlen2 : 0 < (stepCycle s inp).read_with_errors.length := by
        rw [hstep]
        exact hlen
      rw [runCycles_cons, ih _ hfa2 hlen2 hrest, hstep, List.filter_cons]
      simp [hrd]

/-- A cycle in which no flip is drawn and the circuit drives every sampled
signal low. -/
def quiet : CycleInput :=
  { flips := [], rsp_ready := false, rsp_valid := false, req_valid := false,
    req_ready := false, sram_clk_en := false, sram_write_en := false, sram_addr := 0 }

/-- `List.getD` on an all-zero `replicate` array is zero at every index. -/
theorem getD_replicate_zero (n k : Nat) : (List.replicate n (0 : Nat)).getD k 0 = 0 := by
  rw [List.getD_eq_getElem?_getD, List.getElem?_replicate]
  split <;> rfl

/-- `parseDigits` consumes nothing when the first character is not a digit. -/
theorem parseDigits_not_digit (c : Char) (cs : List Char) (h : c.isDigit = false) :
    parseDigits (c :: cs) 0 = 0 := by
  simp [parseDigits, h]

/-- When no digits are recognisable, `strtoull` yields 0 — on the empty
string, after a bare or non-numeral-followed sign, and on any other
non-digit leading character. -/
theorem strtoullCore_eq_zero (t : List Char) (h : noLeadingDigit t = true) :
    strtoullCore t = 0 := by
  rcases t with _ | ⟨c, rest⟩
  · rfl
  · by_cases hsign : c = '-' ∨ c = '+'
    · have hrest : parseDigits rest 0 = 0 := by
        rcases rest with _ | ⟨d, ds⟩
        · rfl
        · have hd : d.isDigit = false := by
            simp only [noLeadingDigit, if_pos hsign] at h
            simpa using h
          exact parseDigits_not_digit d ds hd
      rcases hsign with hm | hp
      · subst hm
        simp [strtoullCore, hrest, Nat.mod_self]
      · subst hp
        simp only [strtoullCore, if_neg (by decide : ¬('+' : Char) = '-'), if_pos rfl]
        exact hrest
    · obtain ⟨h1, h2⟩ := not_or.mp hsign
      have hd : c.isDigit = false := by
        simp only [noLeadingDigit, if_neg hsign] at h
        simpa using h
      simp only [strtoullCore, if_neg h1, if_neg h2]
      exact parseDigits_not_digit c rest hd

/-- A first argument parsing to 0 makes the main loop empty: the process
prints the untouched all-zero counters and histogram and exits 0, whatever
the second argument, the geometry, and the circuit behaviour. -/
theorem mainSim_parse_zero (total_arg lambda_arg : String)
    (num_memory_cells num_memory_bits : Nat) (oracle : Nat → CycleInput)
    (ha : strtoull10 total_arg = 0) :
    mainSim [total_arg, lambda_arg] num_memory_cells num_memory_bits oracle =
      MainResult.report 0 (initState num_memory_cells num_memory_bits) := by
  have hget : ([total_arg, lambda_arg].getD 0 "") = total_arg := rfl
  simp [mainSim, hget, ha, runCycles_nil]

/-! ## The claims -/

/-- Claim C1, as stated, is false: injection is an XOR (sim.cpp line 116), so
re-flipping a bit that is already flipped clears it again.  Starting from a
freshly cleared cell (shadow mask 0), the injection sequence
`flip(0,0); flip(0,0)` has its second injection strictly *decrease* the
cell's popcount (from 1 back to 0), with no intervening clear. -/
theorem claim_C1_counterexample :
    popcount ((injectFlip (injectFlip (List.replicate 1 0) (0, 0)) (0, 0)).getD 0 0) <
      popcount ((injectFlip (List.replicate 1 0) (0, 0)).getD 0 0) := by
  decide

/-- Claim C1 (amended): between clears, each fault injection toggles one
shadow bit, so it changes the cell's popcount by exactly one: the popcount
increases by 1 — in particular does not decrease — exactly when the injected
bit was not already flipped, and decreases by 1 when the same bit was already
flipped (a re-flip cancels). -/
theorem claim_C1_theorem (fa : List Nat) (cell bit : Nat) (hb : bit < 64)
    (hc : cell < fa.length) :
    ((fa.getD cell 0).testBit bit = false →
      popcount ((injectFlip fa (cell, bit)).getD cell 0) = popcount (fa.getD cell 0) + 1) ∧
    ((fa.getD cell 0).testBit bit = true →
      popcount ((injectFlip fa (cell, bit)).getD cell 0) + 1 = popcount (fa.getD cell 0)) := by
  constructor
  · intro h
    rw [getD_injectFlip_self fa cell bit hc]
    exact popcount_flip_up _ _ hb h
  · intro h
    rw [getD_injectFlip_self fa cell bit hc]
    exact popcount_flip_down _ _ hb h

/-- Concrete instance of the amended C1: flipping bit 0 of a cleared cell
raises its popcount from 0 to 1. -/
theorem claim_C1_witness :
    (0 : Nat) < 64 ∧ 0 < (List.replicate 1 (0 : Nat) : List Nat).length ∧
    popcount ((injectFlip (List.replicate 1 0) (0, 0)).getD 0 0) =
      popcount ((List.replicate 1 (0 : Nat)).getD 0 0) + 1 :=
  ⟨by decide, by decide,
    (claim_C1_theorem (List.replicate 1 0) 0 0 (by decide) (by decide)).1 (by decide)⟩

/-- Claim C2: in a cycle sampled with `clock_enable` and not `write_enable`
(a read), the driver increments `read_with_errors[popcount(flips_array[addr])]`
(using the post-injection shadow state); with both asserted (a write), it
resets the address's shadow entry to zero; and a single flip to
`(cell 3, bit 5)` followed immediately by a read of cell 3 with no intervening
write increments histogram bucket 1. -/
theorem claim_C2_theorem :
    (∀ (s : SimState) (inp : CycleInput), inp.sram_clk_en = true →
      inp.sram_write_en = false →
      popcount ((inp.flips.foldl injectFlip s.flips_array).getD inp.sram_addr 0) <
        s.read_with_errors.length →
      (stepCycle s inp).read_with_errors.getD
          (popcount ((inp.flips.foldl injectFlip s.flips_array).getD inp.sram_addr 0)) 0 =
        s.read_with_errors.getD
          (popcount ((inp.flips.foldl injectFlip s.flips_array).getD inp.sram_addr 0)) 0 + 1) ∧
    (∀ (s : SimState) (inp : CycleInput), inp.sram_clk_en = true →
      inp.sram_write_en = true →
      (stepCycle s inp).flips_array.getD inp.sram_addr 0 = 0) ∧
    (runCycles (initState 8 7)
        [{ quiet with flips := [(3, 5)] },
         { quiet with sram_clk_en := true, sram_addr := 3 }]).read_with_errors.getD 1 0 = 1 := by
  refine ⟨?_, ?_, by decide⟩
  · intro s inp hc hw hlt
    rw [stepCycle_hist_read s inp hc hw]
    simp only [List.getD_eq_getElem?_getD] at hlt ⊢
    rw [List.getElem?_set]
    simp [hlt]
  · intro s inp hc hw
    rw [stepCycle_fa_write s inp hc hw]
    exact getD_set_zero_self _ _

/-- Concrete instance of C2: a read cycle with untouched shadow state bumps
bucket 0 from 0 to 1. -/
theorem claim_C2_witness :
    (initState 2 3).read_with_errors.getD 0 0 + 1 = 1 ∧
    (stepCycle (initState 2 3) { quiet with sram_clk_en := true }).read_with_errors.getD 0 0 =
      (initState 2 3).read_with_errors.getD 0 0 + 1 :=
  ⟨by decide,
    claim_C2_theorem.1 (initState 2 3) { quiet with sram_clk_en := true } rfl rfl (by decide)⟩

/-- Claim C3: the final `errors_injected` equals the sum, over all executed
cycles, of the number of flips drawn in that cycle — each drawn flip
increments the counter exactly once (sim.cpp line 122). -/
theorem claim_C3_theorem (num_memory_cells num_memory_bits : Nat)
    (trace : List CycleInput) :
    (runCycles (initState num_memory_cells num_memory_bits) trace).errors_injected =
      (trace.map (fun inp => inp.flips.length)).sum := by
  rw [runCycles_errors]
  simp [initState]

/-- Claim C4: always, `req_fire_cycles ≤ req_valid_cycles` and
`rsp_fire_cycles ≤ rsp_ready_cycles` (for every run, hence at every point of
every run), and per cycle a fire counter is incremented only when the
corresponding valid/ready counter is incremented as well. -/
theorem claim_C4_theorem :
    (∀ (num_memory_cells num_memory_bits : Nat) (trace : List CycleInput),
      (runCycles (initState num_memory_cells num_memory_bits) trace).req_fire_cycles ≤
        (runCycles (initState num_memory_cells num_memory_bits) trace).req_valid_cycles ∧
      (runCycles (initState num_memory_cells num_memory_bits) trace).rsp_fire_cycles ≤
        (runCycles (initState num_memory_cells num_memory_bits) trace).rsp_ready_cycles) ∧
    (∀ (s : SimState) (inp : CycleInput),
      ((stepCycle s inp).req_fire_cycles = s.req_fire_cycles + 1 →
        (stepCycle s inp).req_valid_cycles = s.req_valid_cycles + 1) ∧
      ((stepCycle s inp).rsp_fire_cycles = s.rsp_fire_cycles + 1 →
        (stepCycle s inp).rsp_ready_cycles = s.rsp_ready_cycles + 1)) := by
  constructor
  · intro num_memory_cells num_memory_bits trace
    exact runCycles_fire_le trace _ (Nat.le_refl 0) (Nat.le_refl 0)
  · intro s inp
    constructor
    · show (if inp.req_valid && inp.req_ready then s.req_fire_cycles + 1
          else s.req_fire_cycles) = s.req_fire_cycles + 1 →
        (if inp.req_valid then s.req_valid_cycles + 1 else s.req_valid_cycles) =
          s.req_valid_cycles + 1
      cases inp.req_valid <;> cases inp.req_ready <;> simp
    · show (if inp.rsp_valid && inp.rsp_ready then s.rsp_fire_cycles + 1
          else s.rsp_fire_cycles) = s.rsp_fire_cycles + 1 →
        (if inp.rsp_ready then s.rsp_ready_cycles + 1 else s.rsp_ready_cycles) =
          s.rsp_ready_cycles + 1
      cases inp.rsp_valid <;> cases inp.rsp_ready <;> simp

/-- A cycle whose request channel has both `valid` and `ready` asserted. -/
def reqFireCycle : CycleInput := { quiet with req_valid := true, req_ready := true }

/-- Concrete instance of C4: with both request signals asserted, the fire and
valid counters both advance by one. -/
theorem claim_C4_witness :
    (stepCycle (initState 1 1) reqFireCycle).req_fire_cycles =
      (initState 1 1).req_fire_cycles + 1 ∧
    (stepCycle (initState 1 1) reqFireCycle).req_valid_cycles =
      (initState 1 1).req_valid_cycles + 1 :=
  ⟨by decide, (claim_C4_theorem.2 (initState 1 1) reqFireCycle).1 (by decide)⟩

/-- Claim C5: flipping the same `(cell, bit)` twice with no intervening clear
restores the whole shadow array, in particular that shadow bit — a
double-flip cancels (XOR idempotence, sim.cpp line 116). -/
theorem claim_C5_theorem : ∀ (fa : List Nat) (cell bit : Nat),
    injectFlip (injectFlip fa (cell, bit)) (cell, bit) = fa ∧
    ((injectFlip (injectFlip fa (cell, bit)) (cell, bit)).getD cell 0).testBit bit =
      (fa.getD cell 0).testBit bit := by
  intro fa cell bit
  have h := injectFlip_cancel fa cell bit
  exact ⟨h, by rw [h]⟩

/-- Claim C6: immediately after the driver observes a write cycle and clears
the address's shadow entry, that cell's popcount is 0; concretely, a cell
with 2 shadow bits set drops to popcount 0 on a write, and a subsequent read
before any new flip lands in histogram bucket 0. -/
theorem claim_C6_theorem :
    (∀ (s : SimState) (inp : CycleInput), inp.sram_clk_en = true →
      inp.sram_write_en = true →
      popcount ((stepCycle s inp).flips_array.getD inp.sram_addr 0) = 0) ∧
    popcount ((runCycles (initState 8 7)
        [{ quiet with flips := [(2, 0), (2, 3)] }]).flips_array.getD 2 0) = 2 ∧
    popcount ((runCycles (initState 8 7)
        [{ quiet with flips := [(2, 0), (2, 3)] },
         { quiet with sram_clk_en := true, sram_write_en := true, sram_addr := 2 }]
      ).flips_array.getD 2 0) = 0 ∧
    (runCycles (initState 8 7)
        [{ quiet with flips := [(2, 0), (2, 3)] },
         { quiet with sram_clk_en := true, sram_write_en := true, sram_addr := 2 },
         { quiet with sram_clk_en := true, sram_addr := 2 }]).read_with_errors.getD 0 0 = 1 := by
  refine ⟨?_, by decide, by decide, by decide⟩
  intro s inp hc hw
  rw [stepCycle_fa_write s inp hc hw, getD_set_zero_self, popcount_zero]

/-- Concrete instance of C6: a write cycle clears the addressed cell's
shadow popcount. -/
theorem claim_C6_witness :
    popcount ((stepCycle (initState 2 3)
      { quiet with sram_clk_en := true, sram_write_en := true }).flips_array.getD 0 0) = 0 :=
  claim_C6_theorem.1 (initState 2 3)
    { quiet with sram_clk_en := true, sram_write_en := true } rfl rfl

/-- Claim C7: when every cycle draws zero flips (a Poisson source with mean
`lambda = 0` always draws 0), the final `errors_injected` is 0 and histogram
bucket 0 equals the number of observed read cycles
(`clock_enable && !write_enable`). -/
theorem claim_C7_theorem (num_memory_cells num_memory_bits : Nat)
    (trace : List CycleInput) (hlambda : ∀ inp ∈ trace, inp.flips = []) :
    (runCycles (initState num_memory_cells num_memory_bits) trace).errors_injected = 0 ∧
    (runCycles (initState num_memory_cells num_memory_bits) trace).read_with_errors.getD 0 0 =
      (trace.filter (fun inp => inp.sram_clk_en && !inp.sram_write_en)).length := by
  constructor
  · rw [runCycles_errors]
    have hsum : (trace.map (fun inp => inp.flips.length)).sum = 0 := by
      apply List.sum_eq_zero
      intro x hx
      obtain ⟨inp, hinp, hxeq⟩ := List.mem_map.mp hx
      rw [← hxeq, hlambda inp hinp]
      rfl
    rw [hsum]
    simp [initState]
  · have h0 : ∀ k,
        (initState num_memory_cells num_memory_bits).flips_array.getD k 0 = 0 :=
      fun k => getD_replicate_zero _ k
    have hlen : 0 < (initState num_memory_cells num_memory_bits).read_with_errors.length := by
      simp [initState]
    rw [runCycles_no_flips trace _ h0 hlen hlambda]
    have : (initState num_memory_cells num_memory_bits).read_with_errors.getD 0 0 = 0 :=
      getD_replicate_zero _ 0
    rw [this, Nat.zero_add]

/-- Concrete instance of C7: a single zero-flip read cycle gives
`errors_injected = 0` and one hit in bucket 0. -/
theorem claim_C7_witness :
    (runCycles (initState 2 3) [{ quiet with sram_clk_en := true }]).errors_injected = 0 ∧
    (runCycles (initState 2 3) [{ quiet with sram_clk_en := true }]).read_with_errors.getD 0 0 =
      ([{ quiet with sram_clk_en := true }].filter
        (fun inp => inp.sram_clk_en && !inp.sram_write_en)).length :=
  claim_C7_theorem 2 3 [{ quiet with sram_clk_en := true }] (by decide)

/-- Claim C8: invoked with two arguments and `total_cycles = 0`, the loop
never runs, so the process prints the initial (all-zero) counters and
histogram buckets and exits with status 0. -/
theorem claim_C8_theorem (lambda_arg : String) (num_memory_cells num_memory_bits : Nat)
    (oracle : Nat → CycleInput) :
    mainSim ["0", lambda_arg] num_memory_cells num_memory_bits oracle =
      MainResult.report 0 (initState num_memory_cells num_memory_bits) ∧
    (initState num_memory_cells num_memory_bits).req_valid_cycles = 0 ∧
    (initState num_memory_cells num_memory_bits).req_fire_cycles = 0 ∧
    (initState num_memory_cells num_memory_bits).rsp_ready_cycles = 0 ∧
    (initState num_memory_cells num_memory_bits).rsp_fire_cycles = 0 ∧
    (initState num_memory_cells num_memory_bits).errors_injected = 0 ∧
    ∀ i, (initState num_memory_cells num_memory_bits).read_with_errors.getD i 0 = 0 := by
  refine ⟨rfl, rfl, rfl, rfl, rfl, rfl, fun i => getD_replicate_zero _ i⟩

/-- Claim C9: with fewer than two positional arguments the process exits with
status 1 before doing any simulation work and produces no report. -/
theorem claim_C9_theorem (args : List String) (num_memory_cells num_memory_bits : Nat)
    (oracle : Nat → CycleInput) (h : args.length < 2) :
    mainSim args num_memory_cells num_memory_bits oracle = MainResult.usage 1 := by
  unfold mainSim
  rw [if_pos h]

/-- Concrete instance of C9: no positional arguments (argument count 1 in
`argv` terms) exits with status 1 and no report. -/
theorem claim_C9_witness :
    ([] : List String).length < 2 ∧
    mainSim [] 1 1 (fun _ => quiet) = MainResult.usage 1 :=
  ⟨by decide, claim_C9_theorem [] 1 1 (fun _ => quiet) (by decide)⟩

/-- Claim C10 (implicit): for every invocation with two positional arguments
that are not valid numerals, the harness reports no usage error — `strtoull`
with a `NULL` end pointer silently parses every unrecognizable `total_cycles`
as 0 (bare non-numerals as well as sign-prefixed ones, and `strtod` likewise
yields 0.0 for an unrecognizable `lambda`, which only feeds the abstracted
random source), so the process runs the (here empty) loop, prints a normal
report, and exits with status 0. -/
theorem claim_C10_theorem :
    (∀ s : String, unrecognizableNumeral s = true → strtoull10 s = 0) ∧
    (∀ (total_arg lambda_arg : String) (num_memory_cells num_memory_bits : Nat)
      (oracle : Nat → CycleInput), unrecognizableNumeral total_arg = true →
      mainSim [total_arg, lambda_arg] num_memory_cells num_memory_bits oracle =
        MainResult.report 0 (initState num_memory_cells num_memory_bits)) :=
  ⟨fun _ h => strtoullCore_eq_zero _ h,
    fun a b num_memory_cells num_memory_bits oracle h =>
      mainSim_parse_zero a b num_memory_cells num_memory_bits oracle
        (strtoullCore_eq_zero _ h)⟩

/-- Concrete instance of C10, exercising the sign-prefixed parser branch:
`"-abc"` and `"x7"` are unrecognizable numerals, `"-abc"` parses to 0, and
the invocation yields a normal all-zero report with exit status 0. -/
theorem claim_C10_witness :
    unrecognizableNumeral "-abc" = true ∧ strtoull10 "-abc" = 0 ∧
    unrecognizableNumeral "x7" = true ∧
    mainSim ["-abc", "x7"] 1 1 (fun _ => quiet) = MainResult.report 0 (initState 1 1) :=
  ⟨by decide, claim_C10_theorem.1 "-abc" (by decide), by decide,
    claim_C10_theorem.2 "-abc" "x7" 1 1 (fun _ => quiet) (by decide)⟩

end SimCpp
